import Mathlib

/-!
Shallow embedding of the rplotter repository (Rust pen-plotter driver) and
proofs about the claims of its specification.

Millimetre quantities (Rust f64) are modelled as exact rationals; the
hypotrochoid generator, whose formulas involve cos/sin of reals, is embedded
generically over a field together with the cosine and sine functions and the
constant pi, and instantiated at the reals with Real.cos / Real.sin / Real.pi
in the theorems.  Machine integers (i32) are modelled as unbounded integers;
the Rust float-to-integer cast `as i32` is truncation toward zero, modelled
by ratTrunc below (the i32 saturation bounds, which are never reached in any
scenario considered here, are not modelled).  I/O and external state (serial
ports, the turtle window) are out of scope; the sequence of values a backend
emits to its device is returned explicitly instead.
-/

/-- Truncation toward zero of a rational number, the semantics of the Rust
float-to-integer cast `as i32` (for values within the i32 range). -/
def ratTrunc (q : ℚ) : ℤ :=
  if 0 ≤ q then ⌊q⌋ else ⌈q⌉

/-! Constants from src/uscutter.rs: calibration of the USCutter LPII. -/

/-- Millimetres per plotter unit on the x axis (uscutter.rs, SCALEX = 0.0251). -/
def SCALEX : ℚ := 251 / 10000

/-- Millimetres per plotter unit on the y axis (uscutter.rs, SCALEY = 0.024917). -/
def SCALEY : ℚ := 24917 / 1000000

/-- Pen offset in plotter units on the x axis (uscutter.rs, OFFSETX = 25). -/
def OFFSETX : ℤ := 25

/-- Pen offset in plotter units on the y axis (uscutter.rs, OFFSETY = 25). -/
def OFFSETY : ℤ := 25

/-- State of the hardware backend (uscutter.rs, struct USCutter), minus the
serial-port handle, which is external I/O. -/
structure USCutter where
  min_x_mm : ℚ
  min_y_mm : ℚ
  pos_x_mm : ℚ
  pos_y_mm : ℚ
  offset_x : ℤ
  offset_y : ℤ
  max_x : ℤ
  max_y : ℤ
deriving DecidableEq, Repr

/-- Constructor USCutter::new.  The Rust code panics when the upper-right
corner is not strictly greater than the lower-left corner (modelled as none);
this check precedes the serial-port open and every other I/O action.  The
port itself is external and omitted. -/
def USCutter.new (llx_mm lly_mm urx_mm ury_mm : ℚ) : Option USCutter :=
  let size_x_mm := urx_mm - llx_mm
  let size_y_mm := ury_mm - lly_mm
  if size_x_mm ≤ 0 ∨ size_y_mm ≤ 0 then none
  else some
    { min_x_mm := llx_mm
      min_y_mm := lly_mm
      pos_x_mm := llx_mm
      pos_y_mm := lly_mm
      offset_x := OFFSETX
      offset_y := OFFSETY
      max_x := ratTrunc (size_x_mm / SCALEX) + OFFSETX
      max_y := ratTrunc (size_y_mm / SCALEY) + OFFSETY }

/-- Conversion of an x dimension in mm to plotter units (USCutter::mm2plt_x). -/
def USCutter.mm2plt_x (s : USCutter) (xmm : ℚ) : ℤ :=
  ratTrunc ((xmm - s.min_x_mm) / SCALEX)

/-- Conversion of a y dimension in mm to plotter units (USCutter::mm2plt_y). -/
def USCutter.mm2plt_y (s : USCutter) (ymm : ℚ) : ℤ :=
  ratTrunc ((ymm - s.min_y_mm) / SCALEY)

/-- Clip an x dimension in plotter units to the interval from 0 to max_x
(USCutter::clip_x). -/
def USCutter.clip_x (s : USCutter) (x : ℤ) : ℤ :=
  if x < 0 then 0 else if x > s.max_x then s.max_x else x

/-- Clip a y dimension in plotter units to the interval from 0 to max_y
(USCutter::clip_y). -/
def USCutter.clip_y (s : USCutter) (y : ℤ) : ℤ :=
  if y < 0 then 0 else if y > s.max_y then s.max_y else y

/-- USCutter::draw.  Returns the updated state together with the device-unit
pair written to the serial port in the PD command.  The position fields are
set to the requested (unclipped) mm destination, exactly as in the source. -/
def USCutter.draw (s : USCutter) (destx_mm desty_mm : ℚ) : USCutter × ℤ × ℤ :=
  ({ s with pos_x_mm := destx_mm, pos_y_mm := desty_mm },
   s.clip_x (s.mm2plt_x destx_mm + s.offset_x),
   s.clip_y (s.mm2plt_y desty_mm + s.offset_y))

/-- USCutter::move_to.  Identical coordinate handling to draw; the emitted
command is PU rather than PD. -/
def USCutter.move_to (s : USCutter) (destx_mm desty_mm : ℚ) : USCutter × ℤ × ℤ :=
  ({ s with pos_x_mm := destx_mm, pos_y_mm := desty_mm },
   s.clip_x (s.mm2plt_x destx_mm + s.offset_x),
   s.clip_y (s.mm2plt_y desty_mm + s.offset_y))

/-- USCutter::draw_relative: draws to the current position displaced by
(dx, dy) and returns the new position. -/
def USCutter.draw_relative (s : USCutter) (dx_mm dy_mm : ℚ) : (USCutter × ℤ × ℤ) × ℚ × ℚ :=
  let r := s.draw (s.pos_x_mm + dx_mm) (s.pos_y_mm + dy_mm)
  (r, r.1.pos_x_mm, r.1.pos_y_mm)

/-- USCutter::move_relative: moves to the current position displaced by
(dx, dy) and returns the new position. -/
def USCutter.move_relative (s : USCutter) (dx_mm dy_mm : ℚ) : (USCutter × ℤ × ℤ) × ℚ × ℚ :=
  let r := s.move_to (s.pos_x_mm + dx_mm) (s.pos_y_mm + dy_mm)
  (r, r.1.pos_x_mm, r.1.pos_y_mm)

/-! Constants from src/turtle_plot.rs: the preview canvas size in pixels. -/

/-- Preview canvas width in pixels (turtle_plot.rs, SCREENX_PX = 1200). -/
def SCREENX_PX : ℚ := 1200

/-- Preview canvas height in pixels (turtle_plot.rs, SCREENY_PX = 600). -/
def SCREENY_PX : ℚ := 600

/-- State of the preview backend (turtle_plot.rs, struct TurtlePlotter), minus
the window handles.  The drawing_center field records the pair handed to
drawing.set_center at construction, i.e. the canvas-centre configuration. -/
structure TurtlePlotter where
  min_x_mm : ℚ
  min_y_mm : ℚ
  max_x_mm : ℚ
  max_y_mm : ℚ
  pos_x_mm : ℚ
  pos_y_mm : ℚ
  scale : ℚ
  drawing_center : ℚ × ℚ
deriving DecidableEq, Repr

/-- Constructor TurtlePlotter::new.  Panics (modelled as none) when the
upper-right corner is not strictly greater than the lower-left corner; this
check precedes the window creation and every other I/O action. -/
def TurtlePlotter.new (llx_mm lly_mm urx_mm ury_mm : ℚ) : Option TurtlePlotter :=
  let size_x_mm := urx_mm - llx_mm
  let size_y_mm := ury_mm - lly_mm
  if size_x_mm ≤ 0 ∨ size_y_mm ≤ 0 then none
  else
    let scalex := size_x_mm / SCREENX_PX
    let scaley := size_y_mm / SCREENY_PX
    let scale := if scalex > scaley then scalex else scaley
    let offsetx := (urx_mm + llx_mm) / 2 / scale
    let offsety := (ury_mm + lly_mm) / 2 / scale
    some
      { min_x_mm := llx_mm
        min_y_mm := lly_mm
        max_x_mm := urx_mm
        max_y_mm := ury_mm
        pos_x_mm := llx_mm
        pos_y_mm := lly_mm
        scale := scale
        drawing_center := (offsetx, offsety) }

/-- TurtlePlotter::draw.  Returns the updated state together with the canvas
point handed to turtle.go_to (the mm coordinates divided by the scale). -/
def TurtlePlotter.draw (s : TurtlePlotter) (destx_mm desty_mm : ℚ) : TurtlePlotter × ℚ × ℚ :=
  ({ s with pos_x_mm := destx_mm, pos_y_mm := desty_mm },
   destx_mm / s.scale, desty_mm / s.scale)

/-- TurtlePlotter::move_to.  Identical coordinate handling to draw, with the
pen raised instead of lowered. -/
def TurtlePlotter.move_to (s : TurtlePlotter) (destx_mm desty_mm : ℚ) : TurtlePlotter × ℚ × ℚ :=
  ({ s with pos_x_mm := destx_mm, pos_y_mm := desty_mm },
   destx_mm / s.scale, desty_mm / s.scale)

/-- TurtlePlotter::draw_relative. -/
def TurtlePlotter.draw_relative (s : TurtlePlotter) (dx_mm dy_mm : ℚ) :
    (TurtlePlotter × ℚ × ℚ) × ℚ × ℚ :=
  let r := s.draw (s.pos_x_mm + dx_mm) (s.pos_y_mm + dy_mm)
  (r, r.1.pos_x_mm, r.1.pos_y_mm)

/-- TurtlePlotter::move_relative. -/
def TurtlePlotter.move_relative (s : TurtlePlotter) (dx_mm dy_mm : ℚ) :
    (TurtlePlotter × ℚ × ℚ) × ℚ × ℚ :=
  let r := s.move_to (s.pos_x_mm + dx_mm) (s.pos_y_mm + dy_mm)
  (r, r.1.pos_x_mm, r.1.pos_y_mm)

/-! The curve generator from src/roulette.rs.  It is written against the
abstract Plottable contract, so here it returns the list of capability calls
it makes, in order; the panic branch returns none.  The field of scalars and
the trigonometric functions are parameters of the embedding (the code uses
f64 cosine and sine, idealised as the real functions in the theorems). -/

/-- One capability call made by the generator: a pen-up move or a pen-down
draw to an absolute position. -/
inductive PlotEvent (K : Type) where
  | move (x y : K)
  | draw (x y : K)
deriving DecidableEq, Repr

/-- Struct Translator of roulette.rs: a rigid placement transform. -/
structure Translator (K : Type) where
  centerx_mm : K
  centery_mm : K
  rot_rad : K

/-- Translator::translate: rotate the input by rot_rad, then add the centre
offset.  The parameters c and s are the cosine and sine functions. -/
def Translator.translate {K : Type} [Field K] (c s : K → K) (tr : Translator K)
    (inputx inputy : K) : K × K :=
  (inputx * c tr.rot_rad - inputy * s tr.rot_rad + tr.centerx_mm,
   inputx * s tr.rot_rad + inputy * c tr.rot_rad + tr.centery_mm)

/-- Steps in one rotation of the rolling circle (roulette.rs, STEPS = 40). -/
def STEPS : ℤ := 40

/-- Function full_hypotrochoid of roulette.rs: checks the parameters, then
emits one move_to to the translated point (plot_radius, 0) followed by one
draw per loop iteration i = 0, 1, ..., inner * STEPS (inclusive).  The check
is the first statement of the function, so in the panic case (none) no
capability call and no other I/O has happened.  The console print of the plot
radius is logging, outside the model. -/
def full_hypotrochoid {K : Type} [Field K] (c s : K → K) (pi : K)
    (rolling_radius_mm pen_radius_mm : K) (inner outer : ℤ)
    (centerx_mm centery_mm rot_rad : K) : Option (List (PlotEvent K)) :=
  if inner > outer then none
  else
    let ratio : K := (inner : K) / (outer : K)
    let outer_mm := rolling_radius_mm / ratio
    let plot_radius := outer_mm - rolling_radius_mm + pen_radius_mm
    let pen2outer := pen_radius_mm / outer_mm
    let trans : Translator K := ⟨centerx_mm, centery_mm, rot_rad⟩
    let p0 := trans.translate c s plot_radius 0
    some (PlotEvent.move p0.1 p0.2 ::
      (List.range (inner * STEPS + 1).toNat).map (fun (i : ℕ) =>
        let t := 2 * pi * (i : K) / 40
        let x := outer_mm * ((1 - ratio) * c t + pen2outer * c ((1 - ratio) / ratio * t))
        let y := outer_mm * ((1 - ratio) * s t - pen2outer * s ((1 - ratio) / ratio * t))
        let p := trans.translate c s x y
        PlotEvent.draw p.1 p.2))

/-! Specification-side definitions, written from the words of the claims, to
be compared with the embedding above. -/

/-- Sample points exactly as the specification describes them: for each i
from 0 to inner * 40 inclusive, with t = 2 * pi * i / 40, the hypotrochoid
point for that t, rotated by rot_rad and then translated by the centre. -/
def specSamplePoints {K : Type} [Field K] (c s : K → K) (pi : K)
    (rolling_radius_mm pen_radius_mm : K) (inner outer : ℤ)
    (centerx_mm centery_mm rot_rad : K) : List (K × K) :=
  (List.range (inner * 40 + 1).toNat).map (fun (i : ℕ) =>
    let t := 2 * pi * (i : K) / 40
    let ratio : K := (inner : K) / (outer : K)
    let outer_mm := rolling_radius_mm / ratio
    let pen_to_outer := pen_radius_mm / outer_mm
    let x := outer_mm * ((1 - ratio) * c t + pen_to_outer * c ((1 - ratio) / ratio * t))
    let y := outer_mm * ((1 - ratio) * s t - pen_to_outer * s ((1 - ratio) / ratio * t))
    (x * c rot_rad - y * s rot_rad + centerx_mm,
     x * s rot_rad + y * c rot_rad + centery_mm))

/-- Start point of the stroke: the point (plot_radius, 0) passed through the
placement transform, which is where the generator sends its initial move_to. -/
def hypoStart {K : Type} [Field K] (c s : K → K)
    (rolling_radius_mm pen_radius_mm : K) (inner outer : ℤ)
    (centerx_mm centery_mm rot_rad : K) : K × K :=
  (Translator.mk centerx_mm centery_mm rot_rad).translate c s
    (rolling_radius_mm / ((inner : K) / (outer : K)) - rolling_radius_mm + pen_radius_mm) 0

/-- Trace of capability calls exactly as the specification describes the
stroke: the first sample point is emitted via move_to and every subsequent
sample point via draw, each sample point emitted exactly once. -/
def specStrokeTrace {K : Type} [Field K] (c s : K → K) (pi : K)
    (rolling_radius_mm pen_radius_mm : K) (inner outer : ℤ)
    (centerx_mm centery_mm rot_rad : K) : List (PlotEvent K) :=
  let pts := specSamplePoints c s pi rolling_radius_mm pen_radius_mm inner outer
    centerx_mm centery_mm rot_rad
  (pts.take 1).map (fun p => PlotEvent.move p.1 p.2) ++
    (pts.drop 1).map (fun p => PlotEvent.draw p.1 p.2)

/-- Device-unit value the specification predicts for the x axis of the
hardware backend: round the scaled offset-from-minimum, add the axis offset,
then clamp.  To be compared with the truncation the code performs. -/
def specRoundUnitsX (s : USCutter) (xmm : ℚ) : ℤ :=
  s.clip_x (round ((xmm - s.min_x_mm) / SCALEX) + s.offset_x)

/-! Helper lemmas. -/

lemma ratTrunc_of_nonneg {q : ℚ} (h : 0 ≤ q) : ratTrunc q = ⌊q⌋ := if_pos h

lemma ratTrunc_nonneg {q : ℚ} (h : 0 ≤ q) : 0 ≤ ratTrunc q := by
  rw [ratTrunc_of_nonneg h]
  exact Int.floor_nonneg.mpr h

lemma SCALEX_pos : 0 < SCALEX := by norm_num [SCALEX]

lemma SCALEY_pos : 0 < SCALEY := by norm_num [SCALEY]

/-- Inversion of a successful USCutter construction: the bounding box was
valid and the fields are the ones the constructor writes. -/
lemma uscutterNew_inv {llx lly urx ury : ℚ} {st : USCutter}
    (h : USCutter.new llx lly urx ury = some st) :
    0 < urx - llx ∧ 0 < ury - lly ∧
    st.min_x_mm = llx ∧ st.min_y_mm = lly ∧ st.pos_x_mm = llx ∧ st.pos_y_mm = lly ∧
    st.offset_x = OFFSETX ∧ st.offset_y = OFFSETY ∧
    st.max_x = ratTrunc ((urx - llx) / SCALEX) + OFFSETX ∧
    st.max_y = ratTrunc ((ury - lly) / SCALEY) + OFFSETY := by
  simp only [USCutter.new] at h
  split_ifs at h with hc
  push_neg at hc
  cases h
  exact ⟨hc.1, hc.2, rfl, rfl, rfl, rfl, rfl, rfl, rfl, rfl⟩

/-- Inversion of a successful TurtlePlotter construction. -/
lemma turtleNew_inv {llx lly urx ury : ℚ} {st : TurtlePlotter}
    (h : TurtlePlotter.new llx lly urx ury = some st) :
    0 < urx - llx ∧ 0 < ury - lly ∧
    st.scale = max ((urx - llx) / SCREENX_PX) ((ury - lly) / SCREENY_PX) ∧
    st.drawing_center = ((urx + llx) / 2 / st.scale, (ury + lly) / 2 / st.scale) ∧
    st.min_x_mm = llx ∧ st.min_y_mm = lly ∧ st.max_x_mm = urx ∧ st.max_y_mm = ury ∧
    st.pos_x_mm = llx ∧ st.pos_y_mm = lly := by
  simp only [TurtlePlotter.new] at h
  split_ifs at h with hc hgt
  · push_neg at hc
    cases h
    exact ⟨hc.1, hc.2, (max_eq_left (le_of_lt hgt)).symm, rfl, rfl, rfl, rfl, rfl, rfl, rfl⟩
  · push_neg at hc
    push_neg at hgt
    cases h
    exact ⟨hc.1, hc.2, (max_eq_right hgt).symm, rfl, rfl, rfl, rfl, rfl, rfl, rfl⟩

/-- Whenever the precondition inner less-or-equal outer holds, the generator
returns its trace: one move_to to the transformed (plot_radius, 0), then one
draw per sample point, the sample points being exactly those the spec
formulas give. -/
lemma full_hypotrochoid_eq_of_le {K : Type} [Field K] (c s : K → K) (pi : K)
    (rolling pen : K) (inner outer : ℤ) (cx cy rot : K) (h : inner ≤ outer) :
    full_hypotrochoid c s pi rolling pen inner outer cx cy rot =
      some (PlotEvent.move (hypoStart c s rolling pen inner outer cx cy rot).1
              (hypoStart c s rolling pen inner outer cx cy rot).2 ::
        (specSamplePoints c s pi rolling pen inner outer cx cy rot).map
          (fun p => PlotEvent.draw p.1 p.2)) := by
  simp only [full_hypotrochoid, specSamplePoints, hypoStart, Translator.translate,
    List.map_map, STEPS]
  rw [if_neg (not_lt.mpr h)]
  rfl

lemma specSamplePoints_length {K : Type} [Field K] (c s : K → K) (pi : K)
    (rolling pen : K) (inner outer : ℤ) (cx cy rot : K) :
    (specSamplePoints c s pi rolling pen inner outer cx cy rot).length =
      (inner * 40 + 1).toNat := by
  simp [specSamplePoints]

/-- Head of the generated sample list: the sample at t = 0 is exactly the
transformed (plot_radius, 0), i.e. the same point the initial move_to goes
to, provided the rolling radius is nonzero. -/
lemma specSamplePoints_head_real (rolling pen : ℝ) (inner outer : ℤ) (cx cy rot : ℝ)
    (h0 : 0 < inner) (h1 : inner ≤ outer) (hr : rolling ≠ 0) :
    (specSamplePoints Real.cos Real.sin Real.pi rolling pen inner outer cx cy rot).head? =
      some (hypoStart Real.cos Real.sin rolling pen inner outer cx cy rot) := by
  obtain ⟨k, hk⟩ : ∃ k, (inner * 40 + 1).toNat = k + 1 :=
    ⟨(inner * 40 + 1).toNat - 1, by omega⟩
  have hinner : ((inner : ℝ)) ≠ 0 := Int.cast_ne_zero.mpr (by omega)
  have houter : ((outer : ℝ)) ≠ 0 := Int.cast_ne_zero.mpr (by omega)
  rw [specSamplePoints, hk, List.range_succ_eq_map]
  simp only [List.map_cons, List.head?_cons, Nat.cast_zero, mul_zero, zero_div,
    Real.cos_zero, Real.sin_zero, zero_mul, sub_zero, mul_one, hypoStart,
    Translator.translate, Option.some.injEq, Prod.mk.injEq]
  constructor
  · field_simp
    ring
  · field_simp
    ring

lemma USCutter.clip_x_clamp (s : USCutter) (n : ℤ) (h : 0 ≤ s.max_x) :
    s.clip_x n = min s.max_x (max 0 n) := by
  unfold USCutter.clip_x
  split_ifs <;> omega

lemma USCutter.clip_y_clamp (s : USCutter) (n : ℤ) (h : 0 ≤ s.max_y) :
    s.clip_y n = min s.max_y (max 0 n) := by
  unfold USCutter.clip_y
  split_ifs <;> omega

/-- Centre-fit bound: when the span from a to b fits in 2 * H scaled pixels,
both endpoints land within H pixels of the scaled box centre. -/
lemma half_box_bound (a b S H : ℚ) (hS : 0 < S) (hab : a ≤ b) (h : b - a ≤ 2 * H * S) :
    |a / S - (b + a) / 2 / S| ≤ H ∧ |b / S - (b + a) / 2 / S| ≤ H := by
  have hS' : S ≠ 0 := ne_of_gt hS
  have h2S : (0:ℚ) < 2 * S := by linarith
  have e1 : a / S - (b + a) / 2 / S = -((b - a) / (2 * S)) := by
    field_simp
    ring
  have e2 : b / S - (b + a) / 2 / S = (b - a) / (2 * S) := by
    field_simp
    ring
  have hq : (b - a) / (2 * S) ≤ H := by
    rw [div_le_iff₀ h2S]
    ring_nf
    ring_nf at h
    linarith
  have hq0 : (0:ℚ) ≤ (b - a) / (2 * S) := div_nonneg (by linarith) (le_of_lt h2S)
  constructor
  · rw [e1, abs_neg, abs_of_nonneg hq0]
    exact hq
  · rw [e2, abs_of_nonneg hq0]
    exact hq

/-! Claim theorems. -/

/-- C1: for 0 < inner and inner at most outer, full_hypotrochoid emits, after
the initial positioning move, exactly inner * 40 + 1 sample points, the
sample for step i being the hypotrochoid formula at t = 2 * pi * i / 40,
rotated by rot_rad and then translated by the centre, each handed to the
plotter as a draw call. -/
theorem C1_hypotrochoid_sample_points (rolling pen : ℝ) (inner outer : ℤ) (cx cy rot : ℝ)
    (h0 : 0 < inner) (h1 : inner ≤ outer) :
    full_hypotrochoid Real.cos Real.sin Real.pi rolling pen inner outer cx cy rot =
      some (PlotEvent.move (hypoStart Real.cos Real.sin rolling pen inner outer cx cy rot).1
              (hypoStart Real.cos Real.sin rolling pen inner outer cx cy rot).2 ::
        (specSamplePoints Real.cos Real.sin Real.pi rolling pen inner outer cx cy rot).map
          (fun p => PlotEvent.draw p.1 p.2)) ∧
    ((specSamplePoints Real.cos Real.sin Real.pi rolling pen inner outer cx cy rot).length : ℤ) =
      inner * 40 + 1 := by
  refine ⟨full_hypotrochoid_eq_of_le Real.cos Real.sin Real.pi rolling pen inner outer
    cx cy rot h1, ?_⟩
  rw [specSamplePoints_length]
  omega

/-- Witness for C1 at rolling = 1, pen = 1, inner = 1, outer = 2, zero
placement. -/
theorem C1_hypotrochoid_sample_points_witness :
    full_hypotrochoid Real.cos Real.sin Real.pi 1 1 1 2 0 0 0 =
      some (PlotEvent.move (hypoStart Real.cos Real.sin 1 1 1 2 0 0 0).1
              (hypoStart Real.cos Real.sin 1 1 1 2 0 0 0).2 ::
        (specSamplePoints Real.cos Real.sin Real.pi 1 1 1 2 0 0 0).map
          (fun p => PlotEvent.draw p.1 p.2)) ∧
    ((specSamplePoints Real.cos Real.sin Real.pi 1 1 1 2 0 0 0).length : ℤ) = 1 * 40 + 1 :=
  C1_hypotrochoid_sample_points 1 1 1 2 0 0 0 (by decide) (by decide)

/-- C4: full_hypotrochoid takes its panic branch exactly when inner exceeds
outer; the check is the first statement of the function, so no capability
call or other I/O precedes the failure, and for inner at most outer no such
error is raised (the result is a trace, not none). -/
theorem C4_inner_outer_check (rolling pen : ℝ) (inner outer : ℤ) (cx cy rot : ℝ) :
    full_hypotrochoid Real.cos Real.sin Real.pi rolling pen inner outer cx cy rot = none ↔
      outer < inner := by
  simp only [full_hypotrochoid]
  split_ifs with h <;> simp [h]

/-- C5 counterexample: at RollerParams 17.1 / 11.4 / 7 / 12 with zero
placement, the generator makes 282 capability calls, while the claimed
stroke shape (first sample via move_to, the remaining samples via draw, each
sample exactly once) has 281; the t = 0 sample is in fact emitted twice,
once via move_to and once more via the first draw of the loop. -/
theorem C5_counterexample :
    (full_hypotrochoid Real.cos Real.sin Real.pi (171/10) (57/5) 7 12 0 0 0).map
        List.length = some 282 ∧
    (specStrokeTrace Real.cos Real.sin Real.pi (171/10) (57/5) 7 12 0 0 0).length = 281 ∧
    full_hypotrochoid Real.cos Real.sin Real.pi (171/10) (57/5) 7 12 0 0 0 ≠
      some (specStrokeTrace Real.cos Real.sin Real.pi (171/10) (57/5) 7 12 0 0 0) := by
  have h1 : (full_hypotrochoid Real.cos Real.sin Real.pi (171/10) (57/5) 7 12 0 0 0).map
      List.length = some 282 := by
    rw [full_hypotrochoid_eq_of_le Real.cos Real.sin Real.pi (171/10) (57/5) 7 12 0 0 0
      (by decide)]
    simp [specSamplePoints_length]
  have h2 : (specStrokeTrace Real.cos Real.sin Real.pi (171/10) (57/5) 7 12 0 0 0).length
      = 281 := by
    rw [specStrokeTrace]
    simp [specSamplePoints_length]
  refine ⟨h1, h2, fun h => ?_⟩
  rw [h] at h1
  simp only [Option.map_some', h2, Option.some.injEq] at h1
  exact absurd h1 (by decide)

/-- C5 amended: the generator first emits one move_to to the transformed
point (plot_radius, 0), which equals the t = 0 sample point (given a nonzero
rolling radius), and then emits every sample point, the t = 0 sample
included, via draw; so the curve is one continuous stroke but the first
point is emitted twice, not once. -/
theorem C5_amended_stroke (rolling pen : ℝ) (inner outer : ℤ) (cx cy rot : ℝ)
    (h0 : 0 < inner) (h1 : inner ≤ outer) (hr : rolling ≠ 0) :
    full_hypotrochoid Real.cos Real.sin Real.pi rolling pen inner outer cx cy rot =
      some (PlotEvent.move (hypoStart Real.cos Real.sin rolling pen inner outer cx cy rot).1
              (hypoStart Real.cos Real.sin rolling pen inner outer cx cy rot).2 ::
        (specSamplePoints Real.cos Real.sin Real.pi rolling pen inner outer cx cy rot).map
          (fun p => PlotEvent.draw p.1 p.2)) ∧
    (specSamplePoints Real.cos Real.sin Real.pi rolling pen inner outer cx cy rot).head? =
      some (hypoStart Real.cos Real.sin rolling pen inner outer cx cy rot) :=
  ⟨full_hypotrochoid_eq_of_le Real.cos Real.sin Real.pi rolling pen inner outer cx cy rot h1,
   specSamplePoints_head_real rolling pen inner outer cx cy rot h0 h1 hr⟩

/-- Witness for the amended C5 at rolling = 1, pen = 1, inner = 1, outer = 1,
zero placement. -/
theorem C5_amended_stroke_witness :
    full_hypotrochoid Real.cos Real.sin Real.pi 1 1 1 1 0 0 0 =
      some (PlotEvent.move (hypoStart Real.cos Real.sin 1 1 1 1 0 0 0).1
              (hypoStart Real.cos Real.sin 1 1 1 1 0 0 0).2 ::
        (specSamplePoints Real.cos Real.sin Real.pi 1 1 1 1 0 0 0).map
          (fun p => PlotEvent.draw p.1 p.2)) ∧
    (specSamplePoints Real.cos Real.sin Real.pi 1 1 1 1 0 0 0).head? =
      some (hypoStart Real.cos Real.sin 1 1 1 1 0 0 0) :=
  C5_amended_stroke 1 1 1 1 0 0 0 (by decide) (by decide) one_ne_zero

/-! Concrete backend states used by witnesses and counterexamples. -/

/-- The state USCutter::new builds for the bounding box (0,0)-(50,50). -/
def uscutter50 : USCutter :=
  { min_x_mm := 0, min_y_mm := 0, pos_x_mm := 0, pos_y_mm := 0,
    offset_x := 25, offset_y := 25, max_x := 2017, max_y := 2031 }

lemma uscutter50_new : USCutter.new 0 0 50 50 = some uscutter50 := by
  simp only [USCutter.new]
  norm_num [uscutter50, ratTrunc, SCALEX, SCALEY, OFFSETX, OFFSETY]

/-- The state USCutter::new builds for the bounding box (-40,-40)-(40,40). -/
def uscutter80 : USCutter :=
  { min_x_mm := -40, min_y_mm := -40, pos_x_mm := -40, pos_y_mm := -40,
    offset_x := 25, offset_y := 25, max_x := 3212, max_y := 3235 }

lemma uscutter80_new : USCutter.new (-40) (-40) 40 40 = some uscutter80 := by
  simp only [USCutter.new]
  norm_num [uscutter80, ratTrunc, SCALEX, SCALEY, OFFSETX, OFFSETY]

/-- The state TurtlePlotter::new builds for the bounding box (0,0)-(50,50). -/
def turtle50 : TurtlePlotter :=
  { min_x_mm := 0, min_y_mm := 0, max_x_mm := 50, max_y_mm := 50,
    pos_x_mm := 0, pos_y_mm := 0, scale := 1/12, drawing_center := (300, 300) }

lemma turtle50_new : TurtlePlotter.new 0 0 50 50 = some turtle50 := by
  simp only [TurtlePlotter.new]
  norm_num [turtle50, SCREENX_PX, SCREENY_PX]

/-- C2 counterexample: with bounding box (0,0)-(50,50), drawing to x = 0.04 mm
emits x device unit 26 (truncation of 0.04 / 0.0251 = 1.5936 gives 1, plus
offset 25), while the round-then-offset-then-clamp formula of the claim gives
27. -/
theorem C2_counterexample :
    (USCutter.new 0 0 50 50).map (fun st => (st.draw (1/25) 0).2.1) = some 26 ∧
    (USCutter.new 0 0 50 50).map (fun st => specRoundUnitsX st (1/25)) = some 27 ∧
    (26 : ℤ) ≠ 27 := by
  rw [uscutter50_new]
  refine ⟨?_, ?_, by decide⟩
  · simp only [Option.map_some']
    norm_num [uscutter50, USCutter.draw, USCutter.mm2plt_x, USCutter.mm2plt_y,
      USCutter.clip_x, USCutter.clip_y, ratTrunc, SCALEX, SCALEY]
  · simp only [Option.map_some']
    norm_num [uscutter50, specRoundUnitsX, USCutter.clip_x, round_eq, SCALEX]

/-- C2 amended: the device unit emitted per axis by draw and move_to is the
truncation toward zero (not the rounding) of (mm - axis_min_mm) / axis_scale,
plus the axis offset, then clamped into the interval from 0 to axis_max_units,
saturating rather than rejecting out-of-range values. -/
theorem C2_amended_unit_conversion (llx lly urx ury x y : ℚ) (st : USCutter)
    (h : USCutter.new llx lly urx ury = some st) :
    (st.draw x y).2 = (st.move_to x y).2 ∧
    (st.draw x y).2.1 = min st.max_x (max 0 (ratTrunc ((x - llx) / SCALEX) + OFFSETX)) ∧
    (st.draw x y).2.2 = min st.max_y (max 0 (ratTrunc ((y - lly) / SCALEY) + OFFSETY)) ∧
    0 ≤ (st.draw x y).2.1 ∧ (st.draw x y).2.1 ≤ st.max_x ∧
    0 ≤ (st.draw x y).2.2 ∧ (st.draw x y).2.2 ≤ st.max_y := by
  obtain ⟨hbx, hby, hminx, hminy, -, -, hoffx, hoffy, hmaxx, hmaxy⟩ := uscutterNew_inv h
  have hmx : (0:ℤ) ≤ st.max_x := by
    rw [hmaxx]
    have := ratTrunc_nonneg (div_nonneg (le_of_lt hbx) (le_of_lt SCALEX_pos))
    simp only [OFFSETX]
    omega
  have hmy : (0:ℤ) ≤ st.max_y := by
    rw [hmaxy]
    have := ratTrunc_nonneg (div_nonneg (le_of_lt hby) (le_of_lt SCALEY_pos))
    simp only [OFFSETY]
    omega
  have e1 : (st.draw x y).2.1 = st.clip_x (ratTrunc ((x - llx) / SCALEX) + OFFSETX) := by
    simp only [USCutter.draw, USCutter.mm2plt_x, hminx, hoffx]
  have e2 : (st.draw x y).2.2 = st.clip_y (ratTrunc ((y - lly) / SCALEY) + OFFSETY) := by
    simp only [USCutter.draw, USCutter.mm2plt_y, hminy, hoffy]
  refine ⟨rfl, ?_, ?_, ?_, ?_, ?_, ?_⟩
  · rw [e1, USCutter.clip_x_clamp st _ hmx]
  · rw [e2, USCutter.clip_y_clamp st _ hmy]
  · rw [e1, USCutter.clip_x_clamp st _ hmx]
    omega
  · rw [e1, USCutter.clip_x_clamp st _ hmx]
    omega
  · rw [e2, USCutter.clip_y_clamp st _ hmy]
    omega
  · rw [e2, USCutter.clip_y_clamp st _ hmy]
    omega

/-- Witness for the amended C2 with bounding box (0,0)-(50,50) at the point
(0.04, 0). -/
theorem C2_amended_unit_conversion_witness :
    (uscutter50.draw (1/25) 0).2 = (uscutter50.move_to (1/25) 0).2 ∧
    (uscutter50.draw (1/25) 0).2.1 =
      min uscutter50.max_x (max 0 (ratTrunc ((1/25 - 0) / SCALEX) + OFFSETX)) ∧
    (uscutter50.draw (1/25) 0).2.2 =
      min uscutter50.max_y (max 0 (ratTrunc ((0 - 0) / SCALEY) + OFFSETY)) ∧
    0 ≤ (uscutter50.draw (1/25) 0).2.1 ∧ (uscutter50.draw (1/25) 0).2.1 ≤ uscutter50.max_x ∧
    0 ≤ (uscutter50.draw (1/25) 0).2.2 ∧ (uscutter50.draw (1/25) 0).2.2 ≤ uscutter50.max_y :=
  C2_amended_unit_conversion 0 0 50 50 (1/25) 0 uscutter50 uscutter50_new

/-- C3: after draw or move_to the tracked position is exactly the requested
mm position, whatever clipping happened to the emitted units, and the
relative forms both move the tracked position by the displacement and return
that new absolute position. -/
theorem C3_unclipped_position_tracking (st : USCutter) (x y dx dy : ℚ) :
    ((st.draw x y).1.pos_x_mm, (st.draw x y).1.pos_y_mm) = (x, y) ∧
    ((st.move_to x y).1.pos_x_mm, (st.move_to x y).1.pos_y_mm) = (x, y) ∧
    (st.draw_relative dx dy).2 = (st.pos_x_mm + dx, st.pos_y_mm + dy) ∧
    ((st.draw_relative dx dy).1.1.pos_x_mm, (st.draw_relative dx dy).1.1.pos_y_mm) =
      (st.pos_x_mm + dx, st.pos_y_mm + dy) ∧
    (st.move_relative dx dy).2 = (st.pos_x_mm + dx, st.pos_y_mm + dy) ∧
    ((st.move_relative dx dy).1.1.pos_x_mm, (st.move_relative dx dy).1.1.pos_y_mm) =
      (st.pos_x_mm + dx, st.pos_y_mm + dy) :=
  ⟨rfl, rfl, rfl, rfl, rfl, rfl⟩

/-- C6: for a point inside the configured bounding box, the converted device
units already lie between 0 and the axis maximum, so the per-axis clipping is
the identity on them. -/
theorem C6_clip_identity_inside_box (llx lly urx ury x y : ℚ) (st : USCutter)
    (h : USCutter.new llx lly urx ury = some st)
    (hx1 : llx ≤ x) (hx2 : x ≤ urx) (hy1 : lly ≤ y) (hy2 : y ≤ lly + (ury - lly)) :
    st.clip_x (st.mm2plt_x x + st.offset_x) = st.mm2plt_x x + st.offset_x ∧
    st.clip_y (st.mm2plt_y y + st.offset_y) = st.mm2plt_y y + st.offset_y ∧
    0 ≤ st.mm2plt_x x + st.offset_x ∧ st.mm2plt_x x + st.offset_x ≤ st.max_x ∧
    0 ≤ st.mm2plt_y y + st.offset_y ∧ st.mm2plt_y y + st.offset_y ≤ st.max_y := by
  obtain ⟨hbx, hby, hminx, hminy, -, -, hoffx, hoffy, hmaxx, hmaxy⟩ := uscutterNew_inv h
  have hx0 : (0:ℚ) ≤ (x - llx) / SCALEX :=
    div_nonneg (by linarith) (le_of_lt SCALEX_pos)
  have hy0 : (0:ℚ) ≤ (y - lly) / SCALEY :=
    div_nonneg (by linarith) (le_of_lt SCALEY_pos)
  have hxm : (x - llx) / SCALEX ≤ (urx - llx) / SCALEX :=
    (div_le_div_iff_of_pos_right SCALEX_pos).mpr (by linarith)
  have hym : (y - lly) / SCALEY ≤ (ury - lly) / SCALEY :=
    (div_le_div_iff_of_pos_right SCALEY_pos).mpr (by linarith)
  have t1 : (0:ℤ) ≤ ratTrunc ((x - llx) / SCALEX) := ratTrunc_nonneg hx0
  have t2 : ratTrunc ((x - llx) / SCALEX) ≤ ratTrunc ((urx - llx) / SCALEX) := by
    rw [ratTrunc_of_nonneg hx0, ratTrunc_of_nonneg (le_trans hx0 hxm)]
    exact Int.floor_le_floor hxm
  have t3 : (0:ℤ) ≤ ratTrunc ((y - lly) / SCALEY) := ratTrunc_nonneg hy0
  have t4 : ratTrunc ((y - lly) / SCALEY) ≤ ratTrunc ((ury - lly) / SCALEY) := by
    rw [ratTrunc_of_nonneg hy0, ratTrunc_of_nonneg (le_trans hy0 hym)]
    exact Int.floor_le_floor hym
  have ex : st.mm2plt_x x = ratTrunc ((x - llx) / SCALEX) := by
    rw [USCutter.mm2plt_x, hminx]
  have ey : st.mm2plt_y y = ratTrunc ((y - lly) / SCALEY) := by
    rw [USCutter.mm2plt_y, hminy]
  simp only [OFFSETX, OFFSETY] at hmaxx hmaxy
  rw [ex, ey, hoffx, hoffy]
  simp only [USCutter.clip_x, USCutter.clip_y, hmaxx, hmaxy, OFFSETX, OFFSETY]
  refine ⟨?_, ?_, by omega, by omega, by omega, by omega⟩
  · split_ifs <;> omega
  · split_ifs <;> omega

/-- Witness for C6 with bounding box (0,0)-(50,50) at the interior point
(25, 25). -/
theorem C6_clip_identity_inside_box_witness :
    uscutter50.clip_x (uscutter50.mm2plt_x 25 + uscutter50.offset_x) =
      uscutter50.mm2plt_x 25 + uscutter50.offset_x ∧
    uscutter50.clip_y (uscutter50.mm2plt_y 25 + uscutter50.offset_y) =
      uscutter50.mm2plt_y 25 + uscutter50.offset_y ∧
    0 ≤ uscutter50.mm2plt_x 25 + uscutter50.offset_x ∧
    uscutter50.mm2plt_x 25 + uscutter50.offset_x ≤ uscutter50.max_x ∧
    0 ≤ uscutter50.mm2plt_y 25 + uscutter50.offset_y ∧
    uscutter50.mm2plt_y 25 + uscutter50.offset_y ≤ uscutter50.max_y :=
  C6_clip_identity_inside_box 0 0 50 50 25 25 uscutter50 uscutter50_new
    (by norm_num) (by norm_num) (by norm_num) (by norm_num)

/-- C7: both constructors fail (panic branch, modelled as none) exactly when
the upper-right corner does not strictly exceed the lower-left corner on some
axis; in the source this check is the first statement of each constructor,
ahead of the serial-port open and the window creation respectively. -/
theorem C7_constructor_validation (llx lly urx ury : ℚ) :
    (USCutter.new llx lly urx ury = none ↔ (urx - llx ≤ 0 ∨ ury - lly ≤ 0)) ∧
    (TurtlePlotter.new llx lly urx ury = none ↔ (urx - llx ≤ 0 ∨ ury - lly ≤ 0)) := by
  constructor
  · simp only [USCutter.new]
    split_ifs with h
    · exact iff_of_true rfl h
    · exact iff_of_false (by simp) h
  · simp only [TurtlePlotter.new]
    split_ifs with h
    · exact iff_of_true rfl h
    · exact iff_of_false (by simp) h

/-- C9 counterexample: the constructor's integer derivation for the bounding
box (-40,-40)-(40,40) yields max_x = 3212, not 3213 (and not the non-integer
80 / 0.0251 + 25): the quotient 80 / 0.0251 = 3187.25... is truncated to 3187
before the offset 25 is added. -/
theorem C9_counterexample :
    (USCutter.new (-40) (-40) 40 40).map (fun st => st.max_x) = some 3212 ∧
    (3212 : ℚ) ≠ 80 / SCALEX + 25 ∧
    (3212 : ℤ) ≠ 3213 := by
  rw [uscutter80_new]
  exact ⟨rfl, by norm_num [SCALEX], by decide⟩

/-- C9 amended: the bounding box (-40,-40)-(40,40) yields max_x_units =
trunc(80 / 0.0251) + 25 = 3212 and max_y_units = trunc(80 / 0.024917) + 25 =
3235. -/
theorem C9_amended_calibration :
    (USCutter.new (-40) (-40) 40 40).map (fun st => (st.max_x, st.max_y)) =
      some (3212, 3235) := by
  rw [uscutter80_new]
  rfl

/-- C10: immediately after construction of either backend the tracked pen
position equals the lower-left corner of the bounding box, so the first
relative move or draw is computed from the lower-left corner. -/
theorem C10_initial_position (llx lly urx ury dx dy : ℚ) (su : USCutter) (tp : TurtlePlotter)
    (h1 : USCutter.new llx lly urx ury = some su)
    (h2 : TurtlePlotter.new llx lly urx ury = some tp) :
    (su.pos_x_mm, su.pos_y_mm) = (llx, lly) ∧
    (tp.pos_x_mm, tp.pos_y_mm) = (llx, lly) ∧
    (su.move_relative dx dy).2 = (llx + dx, lly + dy) ∧
    (su.draw_relative dx dy).2 = (llx + dx, lly + dy) ∧
    (tp.move_relative dx dy).2 = (llx + dx, lly + dy) ∧
    (tp.draw_relative dx dy).2 = (llx + dx, lly + dy) := by
  obtain ⟨-, -, -, -, hux, huy, -, -, -, -⟩ := uscutterNew_inv h1
  obtain ⟨-, -, -, -, -, -, -, -, htx, hty⟩ := turtleNew_inv h2
  refine ⟨?_, ?_, ?_, ?_, ?_, ?_⟩
  · rw [hux, huy]
  · rw [htx, hty]
  · show (su.pos_x_mm + dx, su.pos_y_mm + dy) = _
    rw [hux, huy]
  · show (su.pos_x_mm + dx, su.pos_y_mm + dy) = _
    rw [hux, huy]
  · show (tp.pos_x_mm + dx, tp.pos_y_mm + dy) = _
    rw [htx, hty]
  · show (tp.pos_x_mm + dx, tp.pos_y_mm + dy) = _
    rw [htx, hty]

/-- Witness for C10 with bounding box (0,0)-(50,50) and displacement (3,4). -/
theorem C10_initial_position_witness :
    (uscutter50.pos_x_mm, uscutter50.pos_y_mm) = (0, 0) ∧
    (turtle50.pos_x_mm, turtle50.pos_y_mm) = (0, 0) ∧
    (uscutter50.move_relative 3 4).2 = (0 + 3, 0 + 4) ∧
    (uscutter50.draw_relative 3 4).2 = (0 + 3, 0 + 4) ∧
    (turtle50.move_relative 3 4).2 = (0 + 3, 0 + 4) ∧
    (turtle50.draw_relative 3 4).2 = (0 + 3, 0 + 4) :=
  C10_initial_position 0 0 50 50 3 4 uscutter50 turtle50 uscutter50_new turtle50_new

/-- C8: the preview scale is the larger of the two axis-fit ratios, the
canvas centre is set to the box centre divided by that scale, every mm point
maps to canvas position mm / scale, and each corner of the bounding box lands
within half the canvas size of the canvas centre on each axis. -/
theorem C8_preview_fit (llx lly urx ury : ℚ) (st : TurtlePlotter)
    (h : TurtlePlotter.new llx lly urx ury = some st) :
    st.scale = max ((urx - llx) / 1200) ((ury - lly) / 600) ∧
    st.drawing_center = ((urx + llx) / 2 / st.scale, (ury + lly) / 2 / st.scale) ∧
    (st.draw llx lly).2 = (llx / st.scale, lly / st.scale) ∧
    (st.move_to urx ury).2 = (urx / st.scale, ury / st.scale) ∧
    |llx / st.scale - st.drawing_center.1| ≤ 1200 / 2 ∧
    |urx / st.scale - st.drawing_center.1| ≤ 1200 / 2 ∧
    |lly / st.scale - st.drawing_center.2| ≤ 600 / 2 ∧
    |ury / st.scale - st.drawing_center.2| ≤ 600 / 2 := by
  obtain ⟨hbx, hby, hsc, hdc, -, -, -, -, -, -⟩ := turtleNew_inv h
  have hspos : (0:ℚ) < st.scale := by
    rw [hsc]
    exact lt_of_lt_of_le (div_pos hbx (by norm_num [SCREENX_PX])) (le_max_left _ _)
  have hx1200 : urx - llx ≤ 2 * (1200 / 2) * st.scale := by
    have h1 : (urx - llx) / SCREENX_PX ≤ st.scale := by
      rw [hsc]
      exact le_max_left _ _
    rw [div_le_iff₀ (by norm_num [SCREENX_PX] : (0:ℚ) < SCREENX_PX)] at h1
    simp only [SCREENX_PX] at h1
    linarith
  have hy600 : ury - lly ≤ 2 * (600 / 2) * st.scale := by
    have h1 : (ury - lly) / SCREENY_PX ≤ st.scale := by
      rw [hsc]
      exact le_max_right _ _
    rw [div_le_iff₀ (by norm_num [SCREENY_PX] : (0:ℚ) < SCREENY_PX)] at h1
    simp only [SCREENY_PX] at h1
    linarith
  have hxb := half_box_bound llx urx st.scale (1200 / 2) hspos (by linarith) hx1200
  have hyb := half_box_bound lly ury st.scale (600 / 2) hspos (by linarith) hy600
  refine ⟨?_, hdc, rfl, rfl, ?_, ?_, ?_, ?_⟩
  · rw [hsc]
    norm_num [SCREENX_PX, SCREENY_PX]
  · rw [hdc]
    exact hxb.1
  · rw [hdc]
    exact hxb.2
  · rw [hdc]
    exact hyb.1
  · rw [hdc]
    exact hyb.2

/-- Witness for C8 with bounding box (0,0)-(50,50). -/
theorem C8_preview_fit_witness :
    turtle50.scale = max ((50 - 0) / 1200) ((50 - 0) / 600) ∧
    turtle50.drawing_center = ((50 + 0) / 2 / turtle50.scale, (50 + 0) / 2 / turtle50.scale) ∧
    (turtle50.draw 0 0).2 = (0 / turtle50.scale, 0 / turtle50.scale) ∧
    (turtle50.move_to 50 50).2 = (50 / turtle50.scale, 50 / turtle50.scale) ∧
    |0 / turtle50.scale - turtle50.drawing_center.1| ≤ 1200 / 2 ∧
    |50 / turtle50.scale - turtle50.drawing_center.1| ≤ 1200 / 2 ∧
    |0 / turtle50.scale - turtle50.drawing_center.2| ≤ 600 / 2 ∧
    |50 / turtle50.scale - turtle50.drawing_center.2| ≤ 600 / 2 :=
  C8_preview_fit 0 0 50 50 turtle50 turtle50_new
